import Mathlib

/-!
Verification development for the horusec-devkit entity marshaling and
classification layer: the stream codec (ParseBodyToEntity,
ParseEntityToIOReadCloser), the error classifier
(checkParseBodyToEntityError), the packet adapter (ParsePacketToEntity),
the identifier normalizer (ParseStringToUUID), and the account Role
enumeration (Role.IsValid, Role.Values).

The Role enumeration is embedded directly from pkg/enums/account/roles.go.
The parser component itself is not part of the visible sources (only its
tests are), so its definitions are modelled from the specification, as
their doc comments note.
-/

set_option autoImplicit false

namespace Horusec

/-- Case-sensitive substring test on character lists: does the second list
start with the first? Mirrors the prefix step of Go strings.Contains. -/
def isPrefChars : List Char → List Char → Bool
  | [], _ => true
  | _ :: _, [] => false
  | p :: ps, c :: cs => p == c && isPrefChars ps cs

/-- Case-sensitive substring containment on character lists: does the
pattern occur contiguously inside the second list? -/
def containsChars (pat : List Char) : List Char → Bool
  | [] => isPrefChars pat []
  | c :: cs => isPrefChars pat (c :: cs) || containsChars pat cs

/-- Case-sensitive substring containment on strings, mirroring Go
strings.Contains s pat. -/
def strContains (s pat : String) : Bool :=
  containsChars pat.data s.data

/-- Modelled from the spec: a low-level failure is identified by its
textual description (the classifier is a pure function of that text). -/
structure GoError where
  message : String
deriving DecidableEq, Repr

/-- Modelled from the spec: the closed taxonomy of domain error kinds
produced by the error classifier: BodyEmpty, BodyInvalid, or Other
wrapping the original unclassified cause. -/
inductive DomainErrorKind where
  | bodyEmpty
  | bodyInvalid
  | other (cause : GoError)
deriving DecidableEq, Repr

/-- Modelled from the spec: the end-of-input signature the classifier
matches against (the literal used by the classifier tests). -/
def eofSignature : String := "eof"

/-- Modelled from the spec: the malformed-syntax signature the classifier
matches against (the literal used by the classifier tests). -/
def invalidCharSignature : String := "invalid character"

/-- Modelled from the spec: the error classifier
(checkParseBodyToEntityError). A pure, total function over the cause's
textual description: case-sensitive substring match against the
end-of-input signature first (it takes precedence), then the
malformed-syntax signature; if neither matches, the original cause is
returned unchanged, wrapped as Other. -/
def checkParseBodyToEntityError (err : GoError) : DomainErrorKind :=
  if strContains err.message eofSignature then .bodyEmpty
  else if strContains err.message invalidCharSignature then .bodyInvalid
  else .other err

/-- Role is the role applicable to an account (pkg/enums/account/roles.go). -/
abbrev Role := String

/-- Role constant from pkg/enums/account/roles.go. -/
def ApplicationAdmin : Role := "applicationAdmin"

/-- Role constant from pkg/enums/account/roles.go. -/
def Admin : Role := "admin"

/-- Role constant from pkg/enums/account/roles.go. -/
def Member : Role := "member"

/-- Role constant from pkg/enums/account/roles.go. -/
def Supervisor : Role := "supervisor"

/-- Values returns a slice of possible Role values
(pkg/enums/account/roles.go). -/
def Role.Values (_ : Role) : List Role :=
  [ApplicationAdmin, Admin, Member, Supervisor]

/-- IsValid checks if a given Role is in possible Values slice: the source
loops over Values and returns true on the first element equal to the
receiver (pkg/enums/account/roles.go). -/
def Role.IsValid (r : Role) : Bool :=
  (Role.Values r).any fun v => v == r

/-- Modelled from the spec: a byte stream is a sequential, closable source
of bytes; the codec consumes it fully and must release it (set closed) on
every exit path. -/
structure ByteStream where
  contents : String
  closed : Bool
deriving DecidableEq, Repr

/-- Releasing the stream, the effect of the deferred Close call. -/
def ByteStream.close (b : ByteStream) : ByteStream :=
  { b with closed := true }

/-- Modelled from the spec: the behavior of the underlying serialization
library's decoder for one target type. It specifies which byte sequences
are well-formed serialized data for the target's shape, how a well-formed
sequence populates a target value, and the textual description of the
low-level failure on non-well-formed input: an empty stream fails with the
end-of-input signature in its text, and non-empty non-well-formed bytes
fail with the malformed-syntax signature (and without the end-of-input
signature) in their text. -/
structure DecoderModel (α : Type) where
  wellFormed : String → Bool
  run : String → α → α
  errMsg : String → String
  empty_not_wellFormed : wellFormed "" = false
  errMsg_empty : strContains (errMsg "") eofSignature = true
  errMsg_malformed : ∀ s, s ≠ "" → wellFormed s = false →
    strContains (errMsg s) invalidCharSignature = true ∧
    strContains (errMsg s) eofSignature = false

/-- Result of one decode call: the classified error (or none on success),
the target value after the call, and the final state of the input stream. -/
structure ParseResult (α : Type) where
  err : Option DomainErrorKind
  target : α
  stream : ByteStream
deriving DecidableEq, Repr

/-- Modelled from the spec: the stream codec's Decode (ParseBodyToEntity).
Decodes the stream into the target; on a low-level failure the cause is
passed through the error classifier; the stream is released on every exit
path, success or failure. -/
def ParseBodyToEntity {α : Type} (M : DecoderModel α) (body : ByteStream)
    (t : α) : ParseResult α :=
  if M.wellFormed body.contents then
    ⟨none, M.run body.contents t, body.close⟩
  else
    ⟨some (checkParseBodyToEntityError ⟨M.errMsg body.contents⟩), t, body.close⟩

/-- Modelled from the spec: the behavior of the underlying serialization
library's encoder for one source type: serialization either yields the
serialized bytes or fails with an error (for example on a
communication-channel-typed field). -/
structure EncoderModel (α : Type) where
  encode : α → Except GoError String

/-- Modelled from the spec: the stream codec's Encode
(ParseEntityToIOReadCloser). On success it returns a fresh, open byte
stream and no error; on failure it returns no stream (nil) together with
the serialization error reported verbatim, not passed through the error
classifier. -/
def ParseEntityToIOReadCloser {α : Type} (E : EncoderModel α) (src : α) :
    Option ByteStream × Option GoError :=
  match E.encode src with
  | .ok bs => (some ⟨bs, false⟩, none)
  | .error e => (none, some e)

/-- Modelled from the spec: a delivery envelope exposing a byte-sequence
payload that may be nil. -/
structure Packet where
  body : Option String
deriving DecidableEq, Repr

/-- Modelled from the spec: the payload bytes of the envelope; a nil
payload is treated identically to a zero-length byte sequence. -/
def Packet.bodyBytes (p : Packet) : String :=
  p.body.getD ""

/-- Modelled from the spec: the packet adapter (ParsePacketToEntity).
Reads the envelope's payload bytes, wraps them in a byte stream, and
delegates to the stream codec's Decode. -/
def ParsePacketToEntity {α : Type} (M : DecoderModel α) (p : Packet)
    (t : α) : Option DomainErrorKind × α :=
  let r := ParseBodyToEntity M ⟨p.bodyBytes, false⟩ t
  (r.err, r.target)

/-- Modelled from the spec: a serializable decoder model, used for
round-trip properties: every source value encodes successfully into
well-formed bytes whose decode reproduces the value in any target. -/
structure RoundTripModel (α : Type) extends DecoderModel α, EncoderModel α where
  encode_ok : ∀ v : α, ∃ b, encode v = .ok b ∧ wellFormed b = true ∧
    ∀ t, run b t = v

/-- The entity shape used by the parser tests: a record with one string
field, RepositoryName. -/
structure AnalysisData where
  repositoryName : String
deriving DecidableEq, Repr

/-- Strips an expected literal head from a character list, returning the
remainder, or none when the list does not start with it. -/
def dropHead : List Char → List Char → Option (List Char)
  | [], cs => some cs
  | _ :: _, [] => none
  | p :: ps, c :: cs => if p == c then dropHead ps cs else none

/-- Strips an expected literal tail from a character list, returning what
came before it, or none when the list does not end with it. -/
def dropTail (suf cs : List Char) : Option (List Char) :=
  (dropHead suf.reverse cs.reverse).map List.reverse

/-- The opening bytes of the serialized test entity. -/
def jsonOpen : String := "\x7b\"repositoryName\":\""

/-- The closing bytes of the serialized test entity. -/
def jsonClose : String := "\"\x7d"

/-- Extracts the field bytes of a serialized test entity, or none when the
bytes are not of that shape. -/
def stripAffixes (cs : List Char) : Option (List Char) :=
  match dropHead jsonOpen.data cs with
  | none => none
  | some rest => dropTail jsonClose.data rest

/-- Well-formedness of serialized data for the test entity shape. -/
def miniWellFormed (s : String) : Bool :=
  (stripAffixes s.data).isSome

/-- Decoding well-formed bytes into a test entity target. -/
def miniRun (s : String) (t : AnalysisData) : AnalysisData :=
  match stripAffixes s.data with
  | some mid => ⟨String.mk mid⟩
  | none => t

/-- The low-level failure text of the test entity decoder: the
end-of-input text on an empty stream, the malformed-syntax text
otherwise. -/
def miniErrMsg (s : String) : String :=
  if s = "" then "eof"
  else "invalid character looking for beginning of value"

theorem dropHead_append (p cs : List Char) : dropHead p (p ++ cs) = some cs := by
  induction p with
  | nil => rfl
  | cons a ps ih => simp [dropHead, ih]

theorem dropTail_append (suf cs : List Char) :
    dropTail suf (cs ++ suf) = some cs := by
  unfold dropTail
  rw [List.reverse_append, dropHead_append]
  simp

theorem stripAffixes_append (mid : List Char) :
    stripAffixes (jsonOpen.data ++ (mid ++ jsonClose.data)) = some mid := by
  unfold stripAffixes
  rw [dropHead_append]
  exact dropTail_append jsonClose.data mid

/-- The test entity decoder model, instantiating the decoder behavior the
spec describes for the test entity shape. -/
def miniModel : DecoderModel AnalysisData where
  wellFormed := miniWellFormed
  run := miniRun
  errMsg := miniErrMsg
  empty_not_wellFormed := by decide
  errMsg_empty := by decide
  errMsg_malformed := by
    intro s hs _
    simp only [miniErrMsg, if_neg hs]
    exact ⟨by decide, by decide⟩

/-- Serializing a test entity into its byte form. -/
def miniEncode (a : AnalysisData) : String :=
  String.mk (jsonOpen.data ++ (a.repositoryName.data ++ jsonClose.data))

/-- The test entity round-trip model: its encoder always succeeds and its
output decodes back to the encoded value. -/
def miniRoundTrip : RoundTripModel AnalysisData where
  toDecoderModel := miniModel
  encode := fun a => .ok (miniEncode a)
  encode_ok := by
    intro v
    refine ⟨miniEncode v, rfl, ?_, ?_⟩
    · show miniWellFormed (miniEncode v) = true
      unfold miniWellFormed miniEncode
      rw [show (String.mk (jsonOpen.data ++ (v.repositoryName.data ++ jsonClose.data))).data
          = jsonOpen.data ++ (v.repositoryName.data ++ jsonClose.data) from rfl]
      rw [stripAffixes_append]
      rfl
    · intro t
      show miniRun (miniEncode v) t = v
      unfold miniRun miniEncode
      rw [show (String.mk (jsonOpen.data ++ (v.repositoryName.data ++ jsonClose.data))).data
          = jsonOpen.data ++ (v.repositoryName.data ++ jsonClose.data) from rfl]
      rw [stripAffixes_append]

/-- A sample well-formed serialized test entity, the shape the parser
tests feed through the codec. -/
def samplePayload : String := "\x7b\"repositoryName\":\"x\"\x7d"

/-- Modelled from the spec: an encoder model for a source type carrying a
communication-channel-typed field: such a value is not serializable, so
serialization always fails with the library's error. -/
def channelFieldEncoder : EncoderModel Unit where
  encode := fun _ => .error ⟨"json unsupported type chan string"⟩

/-- Modelled from the spec: a 128-bit identifier, represented as its 32
hexadecimal nibbles. -/
abbrev UUID := { ds : List (Fin 16) // ds.length = 32 }

/-- The nil sentinel identifier: all zero bits. -/
def UUID.nil : UUID := ⟨List.replicate 32 0, by simp⟩

/-- The value of a hexadecimal digit character (either case), or none,
computed from the character code: digits are codes 48-57, lowercase a-f
are 97-102, uppercase A-F are 65-70. -/
def hexVal (c : Char) : Option (Fin 16) :=
  let n := c.toNat
  if h : 48 ≤ n ∧ n ≤ 57 then some ⟨n - 48, by omega⟩
  else if h2 : 97 ≤ n ∧ n ≤ 102 then some ⟨n - 87, by omega⟩
  else if h3 : 65 ≤ n ∧ n ≤ 70 then some ⟨n - 55, by omega⟩
  else none

/-- The lowercase hexadecimal character of a nibble. -/
def hexChar (d : Fin 16) : Char :=
  "0123456789abcdef".data.getD d.val '0'

/-- Reads exactly n hexadecimal digits from the front of a character list,
returning their values and the remaining characters. -/
def readHex : Nat → List Char → Option (List (Fin 16) × List Char)
  | 0, cs => some ([], cs)
  | _ + 1, [] => none
  | n + 1, c :: cs =>
    match hexVal c with
    | none => none
    | some d =>
      match readHex n cs with
      | none => none
      | some (ds, rest) => some (d :: ds, rest)

/-- Consumes one expected hyphen separator. -/
def expectDash : List Char → Option (List Char)
  | '-' :: cs => some cs
  | _ => none

/-- Modelled from the spec: strict parse of the canonical 8-4-4-4-12
hyphenated hexadecimal form, yielding the 32 nibbles. -/
def parseUUIDChars (cs : List Char) : Option (List (Fin 16)) :=
  (readHex 8 cs).bind fun p1 =>
  (expectDash p1.2).bind fun r1 =>
  (readHex 4 r1).bind fun p2 =>
  (expectDash p2.2).bind fun r2 =>
  (readHex 4 r2).bind fun p3 =>
  (expectDash p3.2).bind fun r3 =>
  (readHex 4 r3).bind fun p4 =>
  (expectDash p4.2).bind fun r4 =>
  (readHex 12 r4).bind fun p5 =>
  if p5.2.isEmpty then some (p1.1 ++ (p2.1 ++ (p3.1 ++ (p4.1 ++ p5.1))))
  else none

/-- Modelled from the spec: strict parse of a string as a canonical
unique-identifier string. -/
def parseUUID (s : String) : Option UUID :=
  match parseUUIDChars s.data with
  | none => none
  | some ds => if h : ds.length = 32 then some ⟨ds, h⟩ else none

/-- Modelled from the spec: the identifier normalizer (ParseStringToUUID).
Total: on a successful strict parse it returns the parsed identifier, and
on any failure it returns the nil sentinel instead of propagating an
error. -/
def ParseStringToUUID (s : String) : UUID :=
  match parseUUID s with
  | some u => u
  | none => UUID.nil

/-- The canonical string rendering of an identifier: its nibbles in
lowercase hexadecimal, grouped 8-4-4-4-12 with hyphens. -/
def uuidStringChars (ds : List (Fin 16)) : List Char :=
  (ds.take 8).map hexChar ++ '-' :: (((ds.drop 8).take 4).map hexChar ++ '-' ::
    (((ds.drop 12).take 4).map hexChar ++ '-' ::
      (((ds.drop 16).take 4).map hexChar ++ '-' :: (ds.drop 20).map hexChar)))

/-- The canonical string representation of an identifier. -/
def uuidString (u : UUID) : String :=
  String.mk (uuidStringChars u.val)

theorem hexVal_hexChar : ∀ d : Fin 16, hexVal (hexChar d) = some d := by decide

@[simp]
theorem optSomeBind {α β : Type} (a : α) (f : α → Option β) :
    (some a).bind f = f a := rfl

@[simp]
theorem expectDash_cons (cs : List Char) : expectDash ('-' :: cs) = some cs := rfl

theorem readHex_append (ds : List (Fin 16)) (rest : List Char) :
    readHex ds.length (ds.map hexChar ++ rest) = some (ds, rest) := by
  induction ds with
  | nil => rfl
  | cons d ds ih =>
    simp only [List.map_cons, List.cons_append, List.length_cons, readHex,
      hexVal_hexChar, List.append_eq, ih]

theorem readHexN (n : Nat) (ds : List (Fin 16)) (h : ds.length = n) :
    ∀ rest, readHex n (ds.map hexChar ++ rest) = some (ds, rest) := by
  intro rest
  rw [← h]
  exact readHex_append ds rest

theorem readHexN_exact (n : Nat) (ds : List (Fin 16)) (h : ds.length = n) :
    readHex n (ds.map hexChar) = some (ds, []) := by
  rw [← List.append_nil (ds.map hexChar)]
  exact readHexN n ds h []

theorem parseUUIDChars_assembled (g1 g2 g3 g4 g5 : List (Fin 16))
    (h1 : g1.length = 8) (h2 : g2.length = 4) (h3 : g3.length = 4)
    (h4 : g4.length = 4) (h5 : g5.length = 12) :
    parseUUIDChars (g1.map hexChar ++ '-' :: (g2.map hexChar ++ '-' ::
      (g3.map hexChar ++ '-' :: (g4.map hexChar ++ '-' :: g5.map hexChar))))
    = some (g1 ++ (g2 ++ (g3 ++ (g4 ++ g5)))) := by
  simp only [parseUUIDChars, readHexN 8 g1 h1, optSomeBind, expectDash_cons,
    readHexN 4 g2 h2, readHexN 4 g3 h3, readHexN 4 g4 h4,
    readHexN_exact 12 g5 h5, List.isEmpty_nil, if_true]

theorem take_drop_assemble {α : Type} (ds : List α) :
    ds.take 8 ++ ((ds.drop 8).take 4 ++ ((ds.drop 12).take 4 ++
      ((ds.drop 16).take 4 ++ ds.drop 20))) = ds := by
  have e1 : (ds.drop 16).drop 4 = ds.drop 20 := by
    rw [List.drop_drop]
  have e2 : (ds.drop 12).drop 4 = ds.drop 16 := by
    rw [List.drop_drop]
  have e3 : (ds.drop 8).drop 4 = ds.drop 12 := by
    rw [List.drop_drop]
  rw [← e1, List.take_append_drop, ← e2, List.take_append_drop,
    ← e3, List.take_append_drop, List.take_append_drop]

theorem parseUUID_round (u : UUID) : parseUUID (uuidString u) = some u := by
  obtain ⟨ds, hds⟩ := u
  have h1 : (ds.take 8).length = 8 := by
    simp [List.length_take, hds]
  have h2 : ((ds.drop 8).take 4).length = 4 := by
    simp [List.length_take, List.length_drop, hds]
  have h3 : ((ds.drop 12).take 4).length = 4 := by
    simp [List.length_take, List.length_drop, hds]
  have h4 : ((ds.drop 16).take 4).length = 4 := by
    simp [List.length_take, List.length_drop, hds]
  have h5 : (ds.drop 20).length = 12 := by
    simp [List.length_drop, hds]
  have hchars : (uuidString ⟨ds, hds⟩).data = uuidStringChars ds := rfl
  unfold parseUUID
  rw [hchars]
  rw [show uuidStringChars ds = (ds.take 8).map hexChar ++ '-' ::
      (((ds.drop 8).take 4).map hexChar ++ '-' ::
        (((ds.drop 12).take 4).map hexChar ++ '-' ::
          (((ds.drop 16).take 4).map hexChar ++ '-' ::
            (ds.drop 20).map hexChar))) from rfl]
  rw [parseUUIDChars_assembled _ _ _ _ _ h1 h2 h3 h4 h5]
  rw [show ds.take 8 ++ ((ds.drop 8).take 4 ++ ((ds.drop 12).take 4 ++
      ((ds.drop 16).take 4 ++ ds.drop 20))) = ds from take_drop_assemble ds]
  show (if h : ds.length = 32 then some (⟨ds, h⟩ : UUID) else none) = some ⟨ds, hds⟩
  rw [dif_pos hds]

theorem checkParse_eof_match (m : String)
    (h : strContains m eofSignature = true) :
    checkParseBodyToEntityError ⟨m⟩ = .bodyEmpty := by
  simp [checkParseBodyToEntityError, h]

theorem checkParse_invalid_match (m : String)
    (hi : strContains m invalidCharSignature = true)
    (he : strContains m eofSignature = false) :
    checkParseBodyToEntityError ⟨m⟩ = .bodyInvalid := by
  simp [checkParseBodyToEntityError, hi, he]

theorem parseBody_err_of_empty {α : Type} (M : DecoderModel α)
    (b : ByteStream) (t : α) (hb : b.contents = "") :
    (ParseBodyToEntity M b t).err = some .bodyEmpty := by
  unfold ParseBodyToEntity
  rw [hb]
  simp only [M.empty_not_wellFormed, Bool.false_eq_true, if_false]
  exact congrArg some (checkParse_eof_match _ M.errMsg_empty)

theorem parseBody_err_of_malformed {α : Type} (M : DecoderModel α)
    (b : ByteStream) (t : α) (hne : b.contents ≠ "")
    (hw : M.wellFormed b.contents = false) :
    (ParseBodyToEntity M b t).err = some .bodyInvalid := by
  unfold ParseBodyToEntity
  simp only [hw, Bool.false_eq_true, if_false]
  obtain ⟨hinv, heof⟩ := M.errMsg_malformed b.contents hne hw
  exact congrArg some (checkParse_invalid_match _ hinv heof)

theorem parseBody_of_wellFormed {α : Type} (M : DecoderModel α)
    (b : ByteStream) (t : α) (hw : M.wellFormed b.contents = true) :
    ParseBodyToEntity M b t = ⟨none, M.run b.contents t, b.close⟩ := by
  unfold ParseBodyToEntity
  rw [if_pos hw]

/-- Claim C1: for every target type and every target value t, decoding a
zero-length byte stream (ParseBodyToEntity on an empty body) returns the
BodyEmpty domain error kind. -/
theorem ParseBodyToEntity_empty_bodyEmpty {α : Type} (M : DecoderModel α)
    (b : ByteStream) (t : α) (hb : b.contents = "") :
    (ParseBodyToEntity M b t).err = some .bodyEmpty :=
  parseBody_err_of_empty M b t hb

/-- Witness for C1: the test entity decoder on an empty stream. -/
theorem ParseBodyToEntity_empty_bodyEmpty_witness :
    (ParseBodyToEntity miniModel ⟨"", false⟩ ⟨""⟩).err = some .bodyEmpty :=
  ParseBodyToEntity_empty_bodyEmpty miniModel ⟨"", false⟩ ⟨""⟩ rfl

/-- Claim C2: the classifier (checkParseBodyToEntityError) returns
BodyEmpty exactly when the cause's textual description contains the
end-of-input signature as a case-sensitive substring, returns BodyInvalid
exactly when it contains the malformed-syntax signature and not the
end-of-input signature (the end-of-input check takes precedence), and is a
pure function of that text. -/
theorem checkParseBodyToEntityError_characterization (e : GoError) :
    (checkParseBodyToEntityError e = .bodyEmpty ↔
      strContains e.message eofSignature = true) ∧
    (checkParseBodyToEntityError e = .bodyInvalid ↔
      (strContains e.message invalidCharSignature = true ∧
        strContains e.message eofSignature = false)) ∧
    (∀ e2 : GoError, e.message = e2.message →
      checkParseBodyToEntityError e = checkParseBodyToEntityError e2) := by
  have hpure : ∀ e2 : GoError, e.message = e2.message →
      checkParseBodyToEntityError e = checkParseBodyToEntityError e2 := by
    intro e2 h
    obtain ⟨m⟩ := e
    obtain ⟨m2⟩ := e2
    simp only [GoError.mk.injEq] at h ⊢
    rw [show m = m2 from h]
  refine ⟨?_, ?_, hpure⟩
  · cases he : strContains e.message eofSignature with
    | true => simp [checkParseBodyToEntityError, he]
    | false =>
      cases hi : strContains e.message invalidCharSignature <;>
        simp [checkParseBodyToEntityError, he, hi]
  · cases he : strContains e.message eofSignature with
    | true => simp [checkParseBodyToEntityError, he]
    | false =>
      cases hi : strContains e.message invalidCharSignature <;>
        simp [checkParseBodyToEntityError, he, hi]

/-- Witness for C2: the classifier at the two signature-bearing causes the
tests use. -/
theorem checkParseBodyToEntityError_characterization_witness :
    checkParseBodyToEntityError ⟨"eof"⟩ = .bodyEmpty ∧
    checkParseBodyToEntityError ⟨"invalid character"⟩ = .bodyInvalid :=
  ⟨((checkParseBodyToEntityError_characterization ⟨"eof"⟩).1).mpr (by decide),
    ((checkParseBodyToEntityError_characterization ⟨"invalid character"⟩).2.1).mpr
      ⟨by decide, by decide⟩⟩

/-- Claim C3: for every cause whose text matches neither signature, the
classifier returns the original cause unchanged, wrapped as Other, so the
caller can always recover the original cause. -/
theorem checkParseBodyToEntityError_preserves_cause (e : GoError)
    (h1 : strContains e.message eofSignature = false)
    (h2 : strContains e.message invalidCharSignature = false) :
    checkParseBodyToEntityError e = .other e := by
  simp [checkParseBodyToEntityError, h1, h2]

/-- Witness for C3: the classifier at the unmatched cause the tests use. -/
theorem checkParseBodyToEntityError_preserves_cause_witness :
    checkParseBodyToEntityError ⟨"test"⟩ = .other ⟨"test"⟩ :=
  checkParseBodyToEntityError_preserves_cause ⟨"test"⟩ (by decide) (by decide)

/-- Claim C4: for every target type and target value, decoding a non-empty
byte stream whose bytes are not well-formed serialized data returns the
BodyInvalid domain error kind. -/
theorem ParseBodyToEntity_malformed_bodyInvalid {α : Type} (M : DecoderModel α)
    (b : ByteStream) (t : α) (hne : b.contents ≠ "")
    (hw : M.wellFormed b.contents = false) :
    (ParseBodyToEntity M b t).err = some .bodyInvalid :=
  parseBody_err_of_malformed M b t hne hw

/-- Witness for C4: the test entity decoder on the bytes of "not json". -/
theorem ParseBodyToEntity_malformed_bodyInvalid_witness :
    (ParseBodyToEntity miniModel ⟨"not json", false⟩ ⟨""⟩).err = some .bodyInvalid :=
  ParseBodyToEntity_malformed_bodyInvalid miniModel ⟨"not json", false⟩ ⟨""⟩
    (by decide) (by decide)

/-- Claim C5: the identifier normalizer (ParseStringToUUID) is total and
never raises: on the canonical representation of any identifier it returns
exactly that identifier, and on every string that does not parse it
returns the all-zero-bits nil sentinel instead of propagating an error. -/
theorem ParseStringToUUID_total_spec :
    (∀ u : UUID, ParseStringToUUID (uuidString u) = u) ∧
    (∀ s : String, parseUUID s = none → ParseStringToUUID s = UUID.nil) := by
  constructor
  · intro u
    unfold ParseStringToUUID
    rw [parseUUID_round]
  · intro s h
    unfold ParseStringToUUID
    rw [h]

/-- Witness for C5: the normalizer round-trips the nil identifier's
canonical string and collapses a non-identifier string to the sentinel. -/
theorem ParseStringToUUID_total_spec_witness :
    ParseStringToUUID (uuidString UUID.nil) = UUID.nil ∧
    ParseStringToUUID "not-a-uuid" = UUID.nil :=
  ⟨ParseStringToUUID_total_spec.1 UUID.nil,
    ParseStringToUUID_total_spec.2 "not-a-uuid" rfl⟩

/-- Claim C6: for every source value that is not serializable, Encode
(ParseEntityToIOReadCloser) returns a nil stream together with the
serialization error reported verbatim, not passed through the error
classifier. -/
theorem ParseEntityToIOReadCloser_encode_failure {α : Type}
    (E : EncoderModel α) (src : α) (e : GoError)
    (h : E.encode src = .error e) :
    ParseEntityToIOReadCloser E src = (none, some e) := by
  unfold ParseEntityToIOReadCloser
  rw [h]

/-- Witness for C6: the encoder of a value carrying a channel-typed
field. -/
theorem ParseEntityToIOReadCloser_encode_failure_witness :
    ParseEntityToIOReadCloser channelFieldEncoder () =
      (none, some ⟨"json unsupported type chan string"⟩) :=
  ParseEntityToIOReadCloser_encode_failure channelFieldEncoder ()
    ⟨"json unsupported type chan string"⟩ rfl

/-- Claim C7: for every valid non-empty serialized byte sequence matching
the target's shape, Decode followed by Encode followed by Decode into a
fresh target reproduces equal field values (round-trip idempotence on
well-formed data). -/
theorem parse_encode_parse_round_trip {α : Type} (M : RoundTripModel α)
    (b : String) (t t0 : α) (hb : M.wellFormed b = true) :
    (ParseBodyToEntity M.toDecoderModel ⟨b, false⟩ t).err = none ∧
    ∃ s2 : ByteStream,
      ParseEntityToIOReadCloser M.toEncoderModel
        (ParseBodyToEntity M.toDecoderModel ⟨b, false⟩ t).target =
          (some s2, none) ∧
      (ParseBodyToEntity M.toDecoderModel s2 t0).err = none ∧
      (ParseBodyToEntity M.toDecoderModel s2 t0).target =
        (ParseBodyToEntity M.toDecoderModel ⟨b, false⟩ t).target := by
  have hdec : ParseBodyToEntity M.toDecoderModel ⟨b, false⟩ t =
      ⟨none, M.run b t, ⟨b, true⟩⟩ :=
    parseBody_of_wellFormed M.toDecoderModel ⟨b, false⟩ t hb
  obtain ⟨b2, henc, hwf2, hrun2⟩ := M.encode_ok (M.run b t)
  have hdec2 : ParseBodyToEntity M.toDecoderModel ⟨b2, false⟩ t0 =
      ⟨none, M.run b2 t0, ⟨b2, true⟩⟩ :=
    parseBody_of_wellFormed M.toDecoderModel ⟨b2, false⟩ t0 hwf2
  refine ⟨by rw [hdec], ⟨b2, false⟩, ?_, ?_, ?_⟩
  · rw [hdec]
    show ParseEntityToIOReadCloser M.toEncoderModel (M.run b t) = _
    unfold ParseEntityToIOReadCloser
    rw [henc]
  · rw [hdec2]
  · rw [hdec, hdec2]
    exact hrun2 t0

/-- Witness for C7: the round trip on the sample payload and the test
entity codec. -/
theorem parse_encode_parse_round_trip_witness :
    (ParseBodyToEntity miniRoundTrip.toDecoderModel ⟨samplePayload, false⟩
        ⟨""⟩).err = none ∧
    ∃ s2 : ByteStream,
      ParseEntityToIOReadCloser miniRoundTrip.toEncoderModel
        (ParseBodyToEntity miniRoundTrip.toDecoderModel ⟨samplePayload, false⟩
          ⟨""⟩).target = (some s2, none) ∧
      (ParseBodyToEntity miniRoundTrip.toDecoderModel s2 ⟨""⟩).err = none ∧
      (ParseBodyToEntity miniRoundTrip.toDecoderModel s2 ⟨""⟩).target =
        (ParseBodyToEntity miniRoundTrip.toDecoderModel ⟨samplePayload, false⟩
          ⟨""⟩).target :=
  parse_encode_parse_round_trip miniRoundTrip samplePayload ⟨""⟩ ⟨""⟩ (by decide)

/-- Claim C8: for every delivery envelope whose payload is nil or
zero-length and every target, ParsePacketToEntity returns the BodyEmpty
domain error kind, as Decode does on a zero-length stream; an envelope
with a well-formed serialized payload decodes with no error and populates
the target from the payload. -/
theorem ParsePacketToEntity_spec {α : Type} (M : DecoderModel α) :
    (∀ (p : Packet) (t : α), (p.body = none ∨ p.body = some "") →
      (ParsePacketToEntity M p t).1 = some .bodyEmpty) ∧
    (∀ (b : String) (t : α), M.wellFormed b = true →
      ParsePacketToEntity M ⟨some b⟩ t = (none, M.run b t)) := by
  constructor
  · intro p t hp
    have hb : p.bodyBytes = "" := by
      rcases hp with h | h <;> simp [Packet.bodyBytes, h]
    show (ParseBodyToEntity M ⟨p.bodyBytes, false⟩ t).err = some .bodyEmpty
    exact parseBody_err_of_empty M ⟨p.bodyBytes, false⟩ t hb
  · intro b t hw
    have h := parseBody_of_wellFormed M ⟨b, false⟩ t hw
    show ((ParseBodyToEntity M ⟨b, false⟩ t).err,
      (ParseBodyToEntity M ⟨b, false⟩ t).target) = (none, M.run b t)
    rw [h]

/-- Witness for C8: a nil-payload envelope and a well-formed-payload
envelope through the test entity decoder; the payload field value x is
recovered in the target. -/
theorem ParsePacketToEntity_spec_witness :
    (ParsePacketToEntity miniModel ⟨none⟩ ⟨""⟩).1 = some .bodyEmpty ∧
    ParsePacketToEntity miniModel ⟨some samplePayload⟩ ⟨""⟩ = (none, ⟨"x"⟩) := by
  constructor
  · exact (ParsePacketToEntity_spec miniModel).1 ⟨none⟩ ⟨""⟩ (Or.inl rfl)
  · have h := (ParsePacketToEntity_spec miniModel).2 samplePayload ⟨""⟩ (by decide)
    rw [h]
    rfl

/-- Claim C9: for every byte stream and every target, Decode
(ParseBodyToEntity) releases the input stream on every exit path, both on
success and on failure. -/
theorem ParseBodyToEntity_closes_stream {α : Type} (M : DecoderModel α)
    (b : ByteStream) (t : α) :
    (ParseBodyToEntity M b t).stream.closed = true := by
  unfold ParseBodyToEntity
  split <;> rfl

/-- Claim C10: Role.IsValid is true exactly on the four enumerated roles,
and Role.Values is that same four-element list for every receiver. -/
theorem Role_IsValid_Values_spec (r : Role) :
    (Role.IsValid r = true ↔
      (r = "applicationAdmin" ∨ r = "admin" ∨ r = "member" ∨
        r = "supervisor")) ∧
    Role.Values r = ["applicationAdmin", "admin", "member", "supervisor"] := by
  constructor
  · simp only [Role.IsValid, Role.Values, ApplicationAdmin, Admin, Member,
      Supervisor, List.any_cons, List.any_nil, Bool.or_eq_true,
      beq_iff_eq, Bool.or_eq_false_iff]
    constructor
    · rintro (h | h | h | h | h) <;> simp_all
    · rintro (h | h | h | h) <;> simp_all
  · rfl

/-- Witness for C10: the admin role is valid and the values list is the
enumerated one. -/
theorem Role_IsValid_Values_spec_witness :
    Role.IsValid "admin" = true ∧
    Role.Values "admin" = ["applicationAdmin", "admin", "member", "supervisor"] :=
  ⟨(Role_IsValid_Values_spec "admin").1.mpr (Or.inr (Or.inl rfl)),
    (Role_IsValid_Values_spec "admin").2⟩

end Horusec
